import Mathlib

/-!
Verification of the dish-washing mini-game.

The development shallowly embeds the interaction and progression state
machine of the game.  Module-level mutable variables of the main variant
(`score`, `timeLeft`, `gameOver`, `carriedDish`, plus the set of pending
wash-completion callbacks living on the scene clock) become a state
record; the per-frame `update` function, the repeating one-second timer
callback, the body of the deferred wash callback and the restart key
handler become pure state transformers.  Player movement, overlap
computation and all purely cosmetic outputs (texts, tints, particles,
sprite positions) are abstracted: the three zone-overlap booleans and the
just-pressed action edge arrive as inputs of a frame event.  A deferred
wash callback dereferences the module-level carried-dish variable at fire
time; when that variable is null the callback raises a TypeError, which
the embedding models as a `crash` result.
-/

namespace MainJs

/-- winThreshold, `const DISHES_TO_WIN = 5` in the source. -/
def DISHES_TO_WIN : Nat := 5

/-- timeLimit, the initial value of `timeLeft` (60) in the source. -/
def TIME_LIMIT : Int := 60

/-- A carried dish sprite: `id` models the identity of the sprite object
allocated by `this.add.sprite`, `isDirty` the flag set on it. -/
structure CDish where
  id : Nat
  isDirty : Bool
deriving DecidableEq

/-- The module-level session state of main.js.  `pendingWashes` counts the
wash-completion callbacks scheduled via `this.time.delayedCall` that have
not yet fired (the scene clock can hold several at once); `nextId` models
the allocator for fresh sprite identities. -/
structure GState where
  score : Nat
  timeLeft : Int
  gameOver : Bool
  carriedDish : Option CDish
  pendingWashes : Nat
  nextId : Nat
deriving DecidableEq

/-- Events driving the session: a rendered frame (with the act edge and
the three zone overlaps as inputs), the one-second timer callback, the
firing of one pending wash-completion callback, and the R key. -/
inductive GEvent where
  | frame (space overPile overSink overRack : Bool)
  | tick
  | washFire
  | restartKey
deriving DecidableEq

/-- Result of a step: the new state, or a thrown TypeError. -/
inductive StepRes where
  | ok (s : GState)
  | crash
deriving DecidableEq

/-- The source condition `carriedDish && carriedDish.isDirty`. -/
def carriedDirty : Option CDish → Bool
  | some d => d.isDirty
  | none => false

/-- The source condition `carriedDish && !carriedDish.isDirty`. -/
def carriedClean : Option CDish → Bool
  | some d => !d.isDirty
  | none => false

/-- The per-frame `update` function of main.js.  Early-returns when
`gameOver`; otherwise, on a just-pressed space edge, runs the first
matching branch of the pickup / wash-start / deliver chain.  The wash
branch only schedules a delayed completion (it does not touch the dish);
the deliver branch destroys the dish, increments the score and calls
`endGame(true)` when the score reaches `DISHES_TO_WIN`. -/
def update (s : GState) (space overPile overSink overRack : Bool) : GState :=
  if s.gameOver then s
  else if space then
    if overPile && s.carriedDish.isNone then
      { s with carriedDish := some { id := s.nextId, isDirty := true },
               nextId := s.nextId + 1 }
    else if overSink && carriedDirty s.carriedDish then
      { s with pendingWashes := s.pendingWashes + 1 }
    else if overRack && carriedClean s.carriedDish then
      if DISHES_TO_WIN ≤ s.score + 1 then
        { s with carriedDish := none, score := s.score + 1, gameOver := true }
      else { s with carriedDish := none, score := s.score + 1 }
    else s
  else s

/-- The repeating one-second timer callback: when not `gameOver`,
decrement `timeLeft` and call `endGame(false)` once it is `≤ 0`. -/
def timerTick (s : GState) : GState :=
  if s.gameOver then s
  else if s.timeLeft - 1 ≤ 0 then
    { s with timeLeft := s.timeLeft - 1, gameOver := true }
  else { s with timeLeft := s.timeLeft - 1 }

/-- One pending wash-completion callback fires.  The callback body
(`clearTint`, `isDirty = false`, particle burst) dereferences the
module-level `carriedDish` at fire time: if it is null, `clearTint`
throws a TypeError.  When no completion is pending the event is a no-op
(it cannot occur).  The scene clock forgets the callback once it has
fired, hence the decrement. -/
def fireWash (s : GState) : StepRes :=
  if s.pendingWashes = 0 then .ok s
  else
    match s.carriedDish with
    | none => .crash
    | some d =>
        .ok { s with carriedDish := some { d with isDirty := false },
                     pendingWashes := s.pendingWashes - 1 }

/-- The `keydown-R` handler registered by `endGame` (hence only live once
the session has ended): reset the session variables and restart the
scene.  The scene restart shuts the scene clock down, cancelling every
still-pending delayed callback. -/
def restartHandler (s : GState) : GState :=
  if s.gameOver then
    { score := 0, timeLeft := TIME_LIMIT, gameOver := false,
      carriedDish := none, pendingWashes := 0, nextId := s.nextId }
  else s

/-- One step of the session. -/
def step (s : GState) : GEvent → StepRes
  | .frame sp op os or => .ok (update s sp op os or)
  | .tick => .ok (timerTick s)
  | .washFire => fireWash s
  | .restartKey => .ok (restartHandler s)

/-- The initial session state. -/
def initG : GState :=
  { score := 0, timeLeft := TIME_LIMIT, gameOver := false,
    carriedDish := none, pendingWashes := 0, nextId := 0 }

/-- Run a list of events; a crash aborts the run. -/
def run (s : GState) : List GEvent → StepRes
  | [] => .ok s
  | e :: tr =>
      match step s e with
      | .ok s2 => run s2 tr
      | .crash => .crash

/-- True when the pickup branch of `update` executes for this event. -/
def pickupFires (s : GState) : GEvent → Bool
  | .frame sp op _ _ => !s.gameOver && sp && op && s.carriedDish.isNone
  | _ => false

/-- True when the deliver branch of `update` executes for this event
(with a clean dish carried, the two earlier branches of the chain are
disabled whatever the overlaps). -/
def deliverFires (s : GState) : GEvent → Bool
  | .frame sp _ _ or => !s.gameOver && sp && or && carriedClean s.carriedDish
  | _ => false

/-- True when the restart handler actually resets the session. -/
def restartFires (s : GState) : GEvent → Bool
  | .restartKey => s.gameOver
  | _ => false

/-- Observer for the derived dish supply: count of pickups in the current
session (reset on an effective restart). -/
def bumpCount (s : GState) (e : GEvent) (n : Nat) : Nat :=
  if restartFires s e then 0 else if pickupFires s e then n + 1 else n

/-- Run a trace while counting the pickups of the current session. -/
def runCount (s : GState) (n : Nat) : List GEvent → Option (GState × Nat)
  | [] => some (s, n)
  | e :: tr =>
      match step s e with
      | .ok s2 => runCount s2 (bumpCount s e n) tr
      | .crash => none

/-- The derived dish supply: tokens remaining after `n` pickups of the
current session. -/
def available (n : Nat) : Nat := DISHES_TO_WIN - n

end MainJs

namespace VariantJs

/-!
Embedding of the unnamed variant (src/unnamed/part_000).  Its session
state is just the carried dish (clean/dirty tracked by the texture key of
the sprite) and the wash timer.  The `washTimer` variable references the
most recently scheduled wash `TimerEvent`; scheduling removes the
previous one first, and `remove` on an already-elapsed event is a no-op.
`pendingWash` counts the wash timers still pending on the scene clock,
`timerLive` records whether the variable references a still-pending
timer.  Because scheduling always removes the referenced timer first, at
most one timer is ever pending (proved below as `PInv`), so the timer
that fires is always the referenced one.
-/

/-- Texture key of the carried sprite. -/
inductive Tex where
  | dirtyDish
  | dish
deriving DecidableEq

/-- Session state of the variant: no score, no countdown, no game-over
flag exist in this source file. -/
structure PState where
  carried : Option Tex
  pendingWash : Nat
  timerLive : Bool
deriving DecidableEq

/-- Events: a frame (act edge, the two zone overlaps — this variant has
no drying-rack zone), and the firing of a wash timer. -/
inductive PEvent where
  | pframe (space overPile overSink : Bool)
  | pwashFire
deriving DecidableEq

/-- Result of a step in the variant. -/
inductive PRes where
  | ok (p : PState)
  | crash
deriving DecidableEq

/-- The per-frame `update` of the variant: pickup over the pile when not
carrying; wash-start over the sink when carrying the dirty texture
(removing any still-pending wash timer before scheduling a new one);
drop a clean dish over the pile area. -/
def pupdate (p : PState) (space overPile overSink : Bool) : PState :=
  if space then
    if p.carried.isNone && overPile then
      { p with carried := some Tex.dirtyDish }
    else if (p.carried = some Tex.dirtyDish) && overSink then
      { carried := p.carried,
        pendingWash :=
          (if p.timerLive then p.pendingWash - 1 else p.pendingWash) + 1,
        timerLive := true }
    else if (p.carried = some Tex.dish) && overPile then
      { p with carried := none }
    else p
  else p

/-- A pending wash timer fires: the callback sets the carried sprite
texture to the clean key, crashing on a null dereference if nothing is
carried.  The fired timer is no longer pending, and (as at most one timer
is ever pending) it is the one the variable references. -/
def pfire (p : PState) : PRes :=
  if p.pendingWash = 0 then .ok p
  else
    match p.carried with
    | none => .crash
    | some _ =>
        .ok { carried := some Tex.dish,
              pendingWash := p.pendingWash - 1, timerLive := false }

/-- One step of the variant session. -/
def pstep (p : PState) : PEvent → PRes
  | .pframe sp op os => .ok (pupdate p sp op os)
  | .pwashFire => pfire p

/-- The initial state of the variant. -/
def pinit : PState := { carried := none, pendingWash := 0, timerLive := false }

/-- Run a list of events in the variant. -/
def prun (p : PState) : List PEvent → PRes
  | [] => .ok p
  | e :: tr =>
      match pstep p e with
      | .ok p2 => prun p2 tr
      | .crash => .crash

/-- Clock invariant of the variant: the wash timer variable references a
pending timer exactly when one is pending, and at most one ever is. -/
def PInv (p : PState) : Prop :=
  p.pendingWash = (if p.timerLive then 1 else 0)

instance (p : PState) : Decidable (PInv p) := by
  unfold PInv; infer_instance

theorem pinv_update (p : PState) (sp op os : Bool) (h : PInv p) :
    PInv (pupdate p sp op os) := by
  unfold PInv at *
  unfold pupdate
  split_ifs <;> simp_all

theorem pinv_step (p p2 : PState) (e : PEvent) (h : PInv p)
    (h2 : pstep p e = .ok p2) : PInv p2 := by
  unfold PInv at *
  cases e with
  | pframe sp op os =>
      simp only [pstep, PRes.ok.injEq] at h2
      subst h2
      exact pinv_update p sp op os h
  | pwashFire =>
      unfold pstep pfire at h2
      split_ifs at h2 with h0
      · simp only [PRes.ok.injEq] at h2; subst h2; exact h
      · cases hc : p.carried with
        | none => rw [hc] at h2; cases h2
        | some t =>
            rw [hc] at h2
            simp only [PRes.ok.injEq] at h2
            subst h2
            split_ifs at h <;> simp_all

end VariantJs

namespace MainJs

/-!
Invariants of the main variant.  `Inv` collects the in-session facts the
progression claims need; `CountInv` ties the derived pickup count to the
state: every pickup of the current session is either already delivered
(counted by `score`) or still in hand. -/

/-- Session invariant of main.js. -/
def Inv (s : GState) : Prop :=
  0 ≤ s.timeLeft ∧
  (s.gameOver = false → 1 ≤ s.timeLeft) ∧
  s.score ≤ DISHES_TO_WIN ∧
  (s.score = DISHES_TO_WIN → s.gameOver = true ∧ s.carriedDish = none)

instance (s : GState) : Decidable (Inv s) := by
  unfold Inv; infer_instance

/-- The pickup count of the current session equals the delivered dishes
plus the dish in hand. -/
def CountInv (s : GState) (n : Nat) : Prop :=
  n = s.score + (if s.carriedDish.isSome then 1 else 0)

instance (s : GState) (n : Nat) : Decidable (CountInv s n) := by
  unfold CountInv; infer_instance

theorem inv_init : Inv initG := by decide

theorem countInv_init : CountInv initG 0 := by decide

theorem inv_update (s : GState) (sp op os or : Bool) (h : Inv s) :
    Inv (update s sp op os or) := by
  obtain ⟨h1, h2, h3, h4⟩ := h
  unfold Inv update DISHES_TO_WIN at *
  split_ifs <;> simp_all <;> omega

theorem inv_tick (s : GState) (h : Inv s) : Inv (timerTick s) := by
  obtain ⟨h1, h2, h3, h4⟩ := h
  unfold Inv timerTick DISHES_TO_WIN at *
  split_ifs <;> simp_all <;> omega

theorem inv_restart (s : GState) (h : Inv s) : Inv (restartHandler s) := by
  obtain ⟨h1, h2, h3, h4⟩ := h
  unfold Inv restartHandler TIME_LIMIT DISHES_TO_WIN at *
  split_ifs <;> simp_all <;> omega

theorem inv_fire (s s2 : GState) (h : Inv s) (h2 : fireWash s = .ok s2) :
    Inv s2 := by
  obtain ⟨h1, hb, h3, h4⟩ := h
  unfold fireWash at h2
  split_ifs at h2 with h0
  · simp only [StepRes.ok.injEq] at h2; subst h2; exact ⟨h1, hb, h3, h4⟩
  · cases hc : s.carriedDish with
    | none => rw [hc] at h2; cases h2
    | some d =>
        rw [hc] at h2
        simp only [StepRes.ok.injEq] at h2
        subst h2
        refine ⟨h1, hb, h3, fun h5 => ?_⟩
        have := h4 h5
        simp_all

theorem inv_step (s s2 : GState) (e : GEvent) (h : Inv s)
    (h2 : step s e = .ok s2) : Inv s2 := by
  cases e with
  | frame sp op os or =>
      simp only [step, StepRes.ok.injEq] at h2
      subst h2; exact inv_update s sp op os or h
  | tick =>
      simp only [step, StepRes.ok.injEq] at h2
      subst h2; exact inv_tick s h
  | washFire => exact inv_fire s s2 h h2
  | restartKey =>
      simp only [step, StepRes.ok.injEq] at h2
      subst h2; exact inv_restart s h

theorem inv_run (s s2 : GState) (tr : List GEvent) (h : Inv s)
    (h2 : run s tr = .ok s2) : Inv s2 := by
  induction tr generalizing s with
  | nil => simp only [run, StepRes.ok.injEq] at h2; subst h2; exact h
  | cons e tr ih =>
      unfold run at h2
      cases hs : step s e with
      | ok s1 =>
          rw [hs] at h2
          exact ih s1 (inv_step s s1 e h hs) h2
      | crash => rw [hs] at h2; cases h2

theorem countInv_step (s s2 : GState) (e : GEvent) (n : Nat)
    (h : CountInv s n) (h2 : step s e = .ok s2) :
    CountInv s2 (bumpCount s e n) := by
  unfold CountInv at *
  cases e with
  | frame sp op os or =>
      simp only [step, StepRes.ok.injEq] at h2
      subst h2
      simp only [bumpCount, restartFires, pickupFires, update]
      obtain ⟨sc, tl, go, cd, pw, ni⟩ := s
      cases cd with
      | none =>
          simp only [carriedDirty, carriedClean, Option.isNone_none,
            Option.isSome_none, Bool.and_false, Bool.false_and,
            Bool.and_true] at h ⊢
          split_ifs <;> simp_all
      | some d =>
          simp only [carriedDirty, carriedClean, Option.isNone_some,
            Option.isSome_some, Bool.and_false, Bool.false_and,
            Bool.and_true] at h ⊢
          split_ifs <;> simp_all
  | tick =>
      simp only [step, StepRes.ok.injEq] at h2
      subst h2
      unfold bumpCount restartFires pickupFires timerTick
      split_ifs <;> simp_all
  | washFire =>
      simp only [step] at h2
      unfold fireWash at h2
      unfold bumpCount restartFires pickupFires
      split_ifs at h2 with h0
      · simp only [StepRes.ok.injEq] at h2; subst h2; simpa using h
      · cases hc : s.carriedDish with
        | none => rw [hc] at h2; cases h2
        | some d =>
            rw [hc] at h2
            simp only [StepRes.ok.injEq] at h2
            subst h2
            simp_all
  | restartKey =>
      simp only [step, StepRes.ok.injEq] at h2
      subst h2
      unfold bumpCount restartFires pickupFires restartHandler
      split_ifs <;> simp_all

theorem countInv_run (s s2 : GState) (tr : List GEvent) (n n2 : Nat)
    (h : Inv s) (hc : CountInv s n)
    (h2 : runCount s n tr = some (s2, n2)) : Inv s2 ∧ CountInv s2 n2 := by
  induction tr generalizing s n with
  | nil =>
      simp only [runCount, Option.some.injEq, Prod.mk.injEq] at h2
      obtain ⟨rfl, rfl⟩ := h2
      exact ⟨h, hc⟩
  | cons e tr ih =>
      unfold runCount at h2
      cases hs : step s e with
      | ok s1 =>
          rw [hs] at h2
          exact ih s1 (bumpCount s e n) (inv_step s s1 e h hs)
            (countInv_step s s1 e n hc hs) h2
      | crash => rw [hs] at h2; cases h2

/-- Trace for the wash-stacking counterexample: pick up at the pile, then
press the act key twice over the sink before any completion fires. -/
def c1trace : List GEvent :=
  [.frame true true false false, .frame true false true false,
   .frame true false true false]

/-- Count of pending wash completions after running a trace from the
initial state. -/
def pendingAfter (tr : List GEvent) : Nat :=
  match run initG tr with
  | .ok s => s.pendingWashes
  | .crash => 0

/-- Trace for the stale-callback crash: pick up, wash-start twice (two
completions now pending), first completion fires (dish clean), deliver at
the rack (carried dish destroyed), second completion fires against a null
carried dish. -/
def c2trace : List GEvent :=
  [.frame true true false false, .frame true false true false,
   .frame true false true false, .washFire, .frame true false false true,
   .washFire]

/-- Trace for the stale-callback rewash: as in `c2trace`, but a new dish
is picked up before the stale completion fires, which then marks the
never-washed dish clean. -/
def c2btrace : List GEvent :=
  [.frame true true false false, .frame true false true false,
   .frame true false true false, .washFire, .frame true false false true,
   .frame true true false false, .washFire]

end MainJs

open MainJs VariantJs in
/-- C1 counterexample: in main.js, from the initial state, one pickup
followed by two wash-start act edges before the delay elapses leaves two
pending wash completions, not at most one. -/
theorem C1_counterexample :
    pendingAfter c1trace = 2 ∧ ¬ pendingAfter c1trace ≤ 1 := by decide

open MainJs VariantJs in
/-- C1 (amended): in main.js, two wash-start act edges over the sink with
a dirty dish carried stack two pending completions; while the dish stays
carried, only the first completion changes the dish (one dirty-to-clean
transition), the second merely consumes its timer.  In the unnamed
variant, wash-start removes any still-pending wash timer before
scheduling, so two act edges leave exactly one pending completion. -/
theorem C1_corrected (s s2 s3 s4 : GState) (i : Nat) (p p1 : PState)
    (hg : s.gameOver = false)
    (hc : s.carriedDish = some { id := i, isDirty := true })
    (h2 : run s [.frame true false true false, .frame true false true false]
          = .ok s2)
    (h3 : step s2 .washFire = .ok s3)
    (h4 : step s3 .washFire = .ok s4)
    (hp : PInv p) (hpc : p.carried = some Tex.dirtyDish)
    (hq : prun p [.pframe true false true, .pframe true false true] = .ok p1) :
    s2.pendingWashes = s.pendingWashes + 2 ∧
    s3.carriedDish = some { id := i, isDirty := false } ∧
    s4 = { s3 with pendingWashes := s3.pendingWashes - 1 } ∧
    p1.pendingWash = 1 := by
  simp [run, step, update, hg, hc, carriedDirty] at h2
  subst h2
  simp [step, fireWash, hc] at h3
  subst h3
  simp [step, fireWash] at h4
  subst h4
  obtain ⟨pc, ppw, pl⟩ := p
  simp only [PState.carried.eq_1] at hpc
  subst hpc
  unfold PInv at hp
  simp only at hp
  cases pl <;> simp at hp <;> subst hp <;>
    simp [prun, pstep, pupdate] at hq <;> subst hq <;> simp


/-- Concrete state for the C1 witness: carrying a dirty dish, over the
sink, nothing pending (reached from `initG` by one pickup). -/
def MainJs.c1s : MainJs.GState :=
  { score := 0, timeLeft := 60, gameOver := false,
    carriedDish := some { id := 0, isDirty := true },
    pendingWashes := 0, nextId := 1 }

/-- State after the two stacked wash-starts of the C1 witness. -/
def MainJs.c1s2 : MainJs.GState :=
  { MainJs.c1s with pendingWashes := 2 }

/-- State after the first completion fires in the C1 witness. -/
def MainJs.c1s3 : MainJs.GState :=
  { score := 0, timeLeft := 60, gameOver := false,
    carriedDish := some { id := 0, isDirty := false },
    pendingWashes := 1, nextId := 1 }

/-- State after the second completion fires in the C1 witness. -/
def MainJs.c1s4 : MainJs.GState :=
  { MainJs.c1s3 with pendingWashes := 0 }

/-- Concrete variant state for the C1 witness: carrying the dirty-dish
texture, no wash timer pending. -/
def VariantJs.c1p : VariantJs.PState :=
  { carried := some VariantJs.Tex.dirtyDish, pendingWash := 0,
    timerLive := false }

/-- Variant state after the two wash-starts of the C1 witness. -/
def VariantJs.c1p1 : VariantJs.PState :=
  { carried := some VariantJs.Tex.dirtyDish, pendingWash := 1,
    timerLive := true }

open MainJs VariantJs in
/-- C1 witness: the amended statement evaluated at concrete states of the
two embeddings. -/
theorem C1_corrected_witness :
    c1s2.pendingWashes = c1s.pendingWashes + 2 ∧
    c1s3.carriedDish = some { id := 0, isDirty := false } ∧
    c1s4 = { c1s3 with pendingWashes := c1s3.pendingWashes - 1 } ∧
    c1p1.pendingWash = 1 :=
  C1_corrected c1s c1s2 c1s3 c1s4 0 c1p c1p1 (by decide) (by decide)
    (by decide) (by decide) (by decide) (by decide) (by decide) (by decide)

open MainJs in
/-- C2: the stale wash-completion callback is not harmless in main.js.
Running `c2trace` (two stacked wash-starts, deliver after the first
completion, then the second completion fires with `carriedDish` null)
crashes with a TypeError; running `c2btrace` (a new dish picked up before
the stale completion fires) marks the never-washed second dish clean. -/
theorem C2_code_bug :
    run initG c2trace = .crash ∧
    run initG c2btrace =
      .ok { score := 1, timeLeft := 60, gameOver := false,
            carriedDish := some { id := 1, isDirty := false },
            pendingWashes := 0, nextId := 2 } := by decide

namespace MainJs

theorem bumpCount_mono (s : GState) (e : GEvent) (n : Nat)
    (h : restartFires s e = false) : n ≤ bumpCount s e n := by
  unfold bumpCount
  rw [h]
  simp only [Bool.false_eq_true, if_false]
  split_ifs <;> omega

theorem count_le_win (s : GState) (n : Nat) (hi : Inv s) (hc : CountInv s n) :
    n ≤ DISHES_TO_WIN := by
  obtain ⟨h1, h2, h3, h4⟩ := hi
  unfold CountInv at hc
  cases hcd : s.carriedDish with
  | none =>
      rw [hcd] at hc
      simp at hc
      omega
  | some d =>
      rw [hcd] at hc
      simp at hc
      have h5 : s.score ≠ DISHES_TO_WIN := by
        intro h6
        rw [(h4 h6).2] at hcd
        cases hcd
      omega

theorem pickup_consumes (s : GState) (n : Nat) (e : GEvent)
    (hi : Inv s) (hc : CountInv s n) (hp : pickupFires s e = true) :
    0 < available n ∧ bumpCount s e n = n + 1 := by
  obtain ⟨h1, h2, h3, h4⟩ := hi
  cases e with
  | frame sp op os or =>
      simp only [pickupFires, Bool.and_eq_true, Bool.not_eq_eq_eq_not,
        Bool.not_true] at hp
      obtain ⟨⟨⟨hgo, hsp⟩, hop⟩, hnone⟩ := hp
      rw [Option.isNone_iff_eq_none] at hnone
      unfold CountInv at hc
      rw [hnone] at hc
      simp at hc
      have h5 : s.score ≠ DISHES_TO_WIN := by
        intro h6
        rw [(h4 h6).1] at hgo
        cases hgo
      constructor
      · unfold available DISHES_TO_WIN at *
        omega
      · simp [bumpCount, restartFires, pickupFires, hgo, hsp, hop, hnone]
  | tick => simp [pickupFires] at hp
  | washFire => simp [pickupFires] at hp
  | restartKey => simp [pickupFires] at hp

theorem empty_supply_noop (s : GState) (n : Nat)
    (hi : Inv s) (hc : CountInv s n) (h5 : n = DISHES_TO_WIN) :
    step s (.frame true true false false) = .ok s := by
  obtain ⟨h1, h2, h3, h4⟩ := hi
  unfold CountInv at hc
  simp only [step, StepRes.ok.injEq]
  cases hcd : s.carriedDish with
  | none =>
      rw [hcd] at hc
      simp at hc
      have hgo : s.gameOver = true := (h4 (by omega)).1
      simp [update, hgo]
  | some d =>
      unfold update
      split_ifs <;> simp_all

end MainJs

open MainJs in
/-- C3: pickup is bounded by the derived finite dish supply.  The supply
(tokens remaining this session) starts at `DISHES_TO_WIN = 5`; along
every crash-free trace from the initial state, at most 5 pickups fire per
session; whenever the pickup branch fires the supply is still positive
and the step consumes exactly one token; outside a restart the consumed
count never decreases (no replenishment); and with the supply exhausted
an act edge over the pile leaves the state unchanged. -/
theorem C3_confirmed (tr : List GEvent) (s : GState) (n : Nat) (e : GEvent)
    (h : runCount initG 0 tr = some (s, n)) :
    available 0 = DISHES_TO_WIN ∧
    n ≤ DISHES_TO_WIN ∧
    available n + n = DISHES_TO_WIN ∧
    (pickupFires s e = true → 0 < available n ∧ bumpCount s e n = n + 1) ∧
    (restartFires s e = false → n ≤ bumpCount s e n) ∧
    (n = DISHES_TO_WIN → step s (.frame true true false false) = .ok s) := by
  obtain ⟨hi, hc⟩ := countInv_run initG s tr 0 n inv_init countInv_init h
  have hle := count_le_win s n hi hc
  refine ⟨by decide, hle, ?_, ?_, ?_, ?_⟩
  · unfold available DISHES_TO_WIN at *
    omega
  · exact fun hp => pickup_consumes s n e hi hc hp
  · exact fun hr => bumpCount_mono s e n hr
  · exact fun h5 => empty_supply_noop s n hi hc h5

/-- Concrete state for the C3 witness: the state after Scenario 1 (one
pickup from the initial state); one token consumed, four remain. -/
def MainJs.c3s : MainJs.GState :=
  { score := 0, timeLeft := 60, gameOver := false,
    carriedDish := some { id := 0, isDirty := true },
    pendingWashes := 0, nextId := 1 }

open MainJs in
/-- C3 witness: Scenario 1 evaluated concretely — after one pickup the
count is 1, so four tokens remain, and the conclusion holds there. -/
theorem C3_confirmed_witness :
    available 0 = DISHES_TO_WIN ∧
    1 ≤ DISHES_TO_WIN ∧
    available 1 + 1 = DISHES_TO_WIN ∧
    (pickupFires c3s .tick = true → 0 < available 1 ∧ bumpCount c3s .tick 1 = 2) ∧
    (restartFires c3s .tick = false → 1 ≤ bumpCount c3s .tick 1) ∧
    (1 = DISHES_TO_WIN → step c3s (.frame true true false false) = .ok c3s) :=
  C3_confirmed [.frame true true false false] c3s 1 .tick (by decide)

open MainJs in
/-- C4: restart is deterministic.  From any ended state (and any pickup
count of the dead session), the restart input yields a playing state with
score 0, full time, nothing carried, no pending completions, and the full
dish supply. -/
theorem C4_confirmed (s : GState) (n : Nat) (h : s.gameOver = true) :
    step s .restartKey =
      .ok { score := 0, timeLeft := TIME_LIMIT, gameOver := false,
            carriedDish := none, pendingWashes := 0, nextId := s.nextId } ∧
    bumpCount s .restartKey n = 0 ∧
    available (bumpCount s .restartKey n) = DISHES_TO_WIN := by
  simp [step, restartHandler, h, bumpCount, restartFires, available]

/-- Concrete ended state for the C4 witness. -/
def MainJs.c4s : MainJs.GState :=
  { score := 3, timeLeft := 0, gameOver := true,
    carriedDish := some { id := 3, isDirty := true },
    pendingWashes := 1, nextId := 4 }

open MainJs in
/-- C4 witness: restart evaluated at a concrete ended (lost) session. -/
theorem C4_confirmed_witness :
    step c4s .restartKey =
      .ok { score := 0, timeLeft := TIME_LIMIT, gameOver := false,
            carriedDish := none, pendingWashes := 0, nextId := c4s.nextId } ∧
    bumpCount c4s .restartKey 4 = 0 ∧
    available (bumpCount c4s .restartKey 4) = DISHES_TO_WIN :=
  C4_confirmed c4s 4 (by decide)

namespace MainJs

theorem score_step (s s2 : GState) (e : GEvent)
    (h2 : step s e = .ok s2) (hr : restartFires s e = false) :
    s2.score = s.score ∨ (deliverFires s e = true ∧ s2.score = s.score + 1) := by
  cases e with
  | frame sp op os or =>
      simp only [step, StepRes.ok.injEq] at h2
      subst h2
      simp only [deliverFires, update]
      obtain ⟨sc, tl, go, cd, pw, ni⟩ := s
      split_ifs <;> simp_all
  | tick =>
      simp only [step, StepRes.ok.injEq] at h2
      subst h2
      unfold timerTick
      split_ifs <;> simp
  | washFire =>
      simp only [step] at h2
      unfold fireWash at h2
      split_ifs at h2 with h0
      · simp only [StepRes.ok.injEq] at h2; subst h2; left; rfl
      · cases hc : s.carriedDish with
        | none => rw [hc] at h2; cases h2
        | some d =>
            rw [hc] at h2
            simp only [StepRes.ok.injEq] at h2
            subst h2
            left; rfl
  | restartKey =>
      simp only [step, StepRes.ok.injEq] at h2
      subst h2
      simp only [restartFires] at hr
      unfold restartHandler
      rw [hr]
      simp

theorem deliver_step (s s2 : GState) (e : GEvent)
    (h2 : step s e = .ok s2) (hd : deliverFires s e = true) :
    s2.score = s.score + 1 ∧ (s2.score = DISHES_TO_WIN → s2.gameOver = true) := by
  cases e with
  | frame sp op os or =>
      simp only [step, StepRes.ok.injEq] at h2
      subst h2
      simp only [deliverFires] at hd
      obtain ⟨sc, tl, go, cd, pw, ni⟩ := s
      cases cd with
      | none => simp [carriedClean] at hd
      | some d =>
          obtain ⟨di, db⟩ := d
          cases db with
          | true => simp [carriedClean] at hd
          | false =>
              simp only [carriedClean, Bool.not_false, Bool.and_true,
                Bool.and_eq_true, Bool.not_eq_eq_eq_not, Bool.not_true] at hd
              obtain ⟨⟨hgo, hsp⟩, hor⟩ := hd
              subst hgo hsp hor
              simp [update, carriedDirty, carriedClean, DISHES_TO_WIN]
              split_ifs <;> simp_all <;> omega
  | tick => simp [deliverFires] at hd
  | washFire => simp [deliverFires] at hd
  | restartKey => simp [deliverFires] at hd

end MainJs

open MainJs in
/-- C5: the score is bounded by `DISHES_TO_WIN` in every crash-free
reachable state; apart from an effective restart, a step either leaves
the score unchanged or is a deliver incrementing it by exactly one; and a
deliver that brings the score to `DISHES_TO_WIN` sets `gameOver` in the
same step, before any further action can be resolved. -/
theorem C5_confirmed (tr : List GEvent) (s s2 : GState) (e : GEvent)
    (h : run initG tr = .ok s) (h2 : step s e = .ok s2) :
    s.score ≤ DISHES_TO_WIN ∧
    (restartFires s e = false →
      s2.score = s.score ∨ (deliverFires s e = true ∧ s2.score = s.score + 1)) ∧
    (deliverFires s e = true → s2.score = s.score + 1) ∧
    (deliverFires s e = true → s2.score = DISHES_TO_WIN → s2.gameOver = true) := by
  have hi := inv_run initG s tr inv_init h
  exact ⟨hi.2.2.1,
    fun hr => score_step s s2 e h2 hr,
    fun hd => (deliver_step s s2 e h2 hd).1,
    fun hd => (deliver_step s s2 e h2 hd).2⟩

/-- Trace for the C5 witness: four full pickup-wash-deliver cycles, then
a fifth pickup and wash, leaving a clean dish in hand at score 4. -/
def MainJs.c5tr : List MainJs.GEvent :=
  [.frame true true false false, .frame true false true false, .washFire,
   .frame true false false true,
   .frame true true false false, .frame true false true false, .washFire,
   .frame true false false true,
   .frame true true false false, .frame true false true false, .washFire,
   .frame true false false true,
   .frame true true false false, .frame true false true false, .washFire,
   .frame true false false true,
   .frame true true false false, .frame true false true false, .washFire]

/-- The state reached by `c5tr`: score 4, carrying a clean dish. -/
def MainJs.c5s : MainJs.GState :=
  { score := 4, timeLeft := 60, gameOver := false,
    carriedDish := some { id := 4, isDirty := false },
    pendingWashes := 0, nextId := 5 }

/-- The state after the winning delivery: score 5, ended with a win. -/
def MainJs.c5s2 : MainJs.GState :=
  { score := 5, timeLeft := 60, gameOver := true,
    carriedDish := none, pendingWashes := 0, nextId := 5 }

open MainJs in
/-- C5 witness: Scenario 3 evaluated concretely — the fifth delivery
takes the score from 4 to 5 and ends the session with a win in the same
step. -/
theorem C5_confirmed_witness :
    c5s.score ≤ DISHES_TO_WIN ∧
    (restartFires c5s (.frame true false false true) = false →
      c5s2.score = c5s.score ∨
        (deliverFires c5s (.frame true false false true) = true ∧
         c5s2.score = c5s.score + 1)) ∧
    (deliverFires c5s (.frame true false false true) = true →
      c5s2.score = c5s.score + 1) ∧
    (deliverFires c5s (.frame true false false true) = true →
      c5s2.score = DISHES_TO_WIN → c5s2.gameOver = true) :=
  C5_confirmed c5tr c5s c5s2 (.frame true false false true)
    (by decide) (by decide)

open MainJs in
/-- C6: along every crash-free trace the clock never goes negative; a
tick decrements `timeLeft` by exactly one when the session is running and
changes nothing once it has ended; and the tick that brings `timeLeft` to
zero sets `gameOver` in the same step. -/
theorem C6_confirmed (tr : List GEvent) (s s2 : GState)
    (h : run initG tr = .ok s) (h2 : step s .tick = .ok s2) :
    0 ≤ s.timeLeft ∧ 0 ≤ s2.timeLeft ∧
    (s.gameOver = false → s2.timeLeft = s.timeLeft - 1) ∧
    (s.gameOver = true → s2 = s) ∧
    (s.gameOver = false → s2.timeLeft = 0 → s2.gameOver = true) := by
  have hi := inv_run initG s tr inv_init h
  have hi2 := inv_step s s2 .tick hi h2
  simp only [step, StepRes.ok.injEq] at h2
  subst h2
  refine ⟨hi.1, hi2.1, ?_, ?_, ?_⟩ <;>
    · unfold timerTick
      split_ifs <;> simp_all <;> omega

/-- Trace for the C6 witness: 59 one-second ticks from the start. -/
def MainJs.c6tr : List MainJs.GEvent := List.replicate 59 .tick

/-- The state reached by `c6tr`: one second on the clock. -/
def MainJs.c6s : MainJs.GState :=
  { score := 0, timeLeft := 1, gameOver := false,
    carriedDish := none, pendingWashes := 0, nextId := 0 }

/-- The state after the sixtieth tick: time zero, session lost. -/
def MainJs.c6s2 : MainJs.GState :=
  { score := 0, timeLeft := 0, gameOver := true,
    carriedDish := none, pendingWashes := 0, nextId := 0 }

set_option maxRecDepth 8000 in
open MainJs in
/-- C6 witness: Scenario 4 evaluated concretely — with one second left
the next tick brings the clock to zero and ends the session. -/
theorem C6_confirmed_witness :
    0 ≤ c6s.timeLeft ∧ 0 ≤ c6s2.timeLeft ∧
    (c6s.gameOver = false → c6s2.timeLeft = c6s.timeLeft - 1) ∧
    (c6s.gameOver = true → c6s2 = c6s) ∧
    (c6s.gameOver = false → c6s2.timeLeft = 0 → c6s2.gameOver = true) :=
  C6_confirmed c6tr c6s c6s2 (by decide) (by decide)

open MainJs in
/-- C7: an ended session is terminal for gameplay.  With `gameOver` set,
any frame (whatever the overlaps and act edge — movement and all three
resolver branches are behind the early return) and any timer tick leave
the state unchanged, and the restart input is the one accepted input,
producing the reset state. -/
theorem C7_confirmed (s : GState) (sp op os or : Bool)
    (h : s.gameOver = true) :
    step s (.frame sp op os or) = .ok s ∧
    step s .tick = .ok s ∧
    step s .restartKey =
      .ok { score := 0, timeLeft := TIME_LIMIT, gameOver := false,
            carriedDish := none, pendingWashes := 0, nextId := s.nextId } := by
  simp [step, update, timerTick, restartHandler, h]

/-- Concrete ended (won) state for the C7 witness. -/
def MainJs.c7s : MainJs.GState :=
  { score := 5, timeLeft := 12, gameOver := true,
    carriedDish := none, pendingWashes := 0, nextId := 5 }

open MainJs in
/-- C7 witness: frames, ticks and restart evaluated at a concrete ended
state. -/
theorem C7_confirmed_witness :
    step c7s (.frame true true false false) = .ok c7s ∧
    step c7s .tick = .ok c7s ∧
    step c7s .restartKey =
      .ok { score := 0, timeLeft := TIME_LIMIT, gameOver := false,
            carriedDish := none, pendingWashes := 0, nextId := c7s.nextId } :=
  C7_confirmed c7s true true false false (by decide)

open MainJs in
/-- C8: the carried-dish singleton is never overwritten while occupied.
If a dish is carried before a step and a dish is carried after it, it is
the same sprite instance, and the pickup branch cannot have fired during
that step. -/
theorem C8_confirmed (s s2 : GState) (e : GEvent) (d d2 : CDish)
    (h : step s e = .ok s2) (h1 : s.carriedDish = some d)
    (h2 : s2.carriedDish = some d2) :
    d2.id = d.id ∧ pickupFires s e = false := by
  cases e with
  | frame sp op os or =>
      simp only [step, StepRes.ok.injEq] at h
      subst h
      obtain ⟨sc, tl, go, cd, pw, ni⟩ := s
      simp only at h1
      subst h1
      constructor
      · unfold update at h2
        split_ifs at h2 <;> simp_all
      · simp [pickupFires]
  | tick =>
      simp only [step, StepRes.ok.injEq] at h
      subst h
      unfold timerTick at h2
      split_ifs at h2 <;> simp_all [pickupFires]
  | washFire =>
      simp only [step] at h
      unfold fireWash at h
      split_ifs at h with h0
      · simp only [StepRes.ok.injEq] at h
        subst h
        rw [h1] at h2
        simp only [Option.some.injEq] at h2
        subst h2
        exact ⟨rfl, rfl⟩
      · rw [h1] at h
        simp only [StepRes.ok.injEq] at h
        subst h
        simp only at h2
        simp only [Option.some.injEq] at h2
        subst h2
        exact ⟨rfl, rfl⟩
  | restartKey =>
      simp only [step, StepRes.ok.injEq] at h
      subst h
      unfold restartHandler at h2
      split_ifs at h2 <;> simp_all [pickupFires]

/-- Concrete running state for the C8 witness, carrying a dirty dish. -/
def MainJs.c8s : MainJs.GState :=
  { score := 2, timeLeft := 50, gameOver := false,
    carriedDish := some { id := 2, isDirty := true },
    pendingWashes := 0, nextId := 3 }

open MainJs in
/-- C8 witness: a wash-start step at a concrete carrying state keeps the
same dish instance and cannot be a pickup. -/
theorem C8_confirmed_witness :
    ({ id := 2, isDirty := true } : CDish).id =
      ({ id := 2, isDirty := true } : CDish).id ∧
    pickupFires c8s (.frame true false true false) = false :=
  C8_confirmed c8s { c8s with pendingWashes := 1 }
    (.frame true false true false) { id := 2, isDirty := true }
    { id := 2, isDirty := true } (by decide) (by decide) (by decide)

namespace MainJs

theorem nextId_mono_step (s s2 : GState) (e : GEvent)
    (h : step s e = .ok s2) : s.nextId ≤ s2.nextId := by
  cases e with
  | frame sp op os or =>
      simp only [step, StepRes.ok.injEq] at h
      subst h
      unfold update
      split_ifs <;> simp
  | tick =>
      simp only [step, StepRes.ok.injEq] at h
      subst h
      unfold timerTick
      split_ifs <;> simp
  | washFire =>
      simp only [step] at h
      unfold fireWash at h
      split_ifs at h with h0
      · simp only [StepRes.ok.injEq] at h; subst h; exact Nat.le_refl _
      · cases hc : s.carriedDish with
        | none => rw [hc] at h; cases h
        | some d =>
            rw [hc] at h
            simp only [StepRes.ok.injEq] at h
            subst h
            exact Nat.le_refl _
  | restartKey =>
      simp only [step, StepRes.ok.injEq] at h
      subst h
      unfold restartHandler
      split_ifs <;> simp

theorem nextId_mono_run (s s2 : GState) (tr : List GEvent)
    (h : run s tr = .ok s2) : s.nextId ≤ s2.nextId := by
  induction tr generalizing s with
  | nil =>
      simp only [run, StepRes.ok.injEq] at h
      subst h
      exact Nat.le_refl _
  | cons e tr ih =>
      unfold run at h
      cases hs : step s e with
      | ok s1 =>
          rw [hs] at h
          exact Nat.le_trans (nextId_mono_step s s1 e hs) (ih s1 h)
      | crash => rw [hs] at h; cases h

theorem clean_step (s s2 : GState) (e : GEvent) (i : Nat)
    (hi : i < s.nextId)
    (hcl : ∀ d, s.carriedDish = some d → d.id = i → d.isDirty = false)
    (h : step s e = .ok s2) :
    i < s2.nextId ∧
    (∀ d, s2.carriedDish = some d → d.id = i → d.isDirty = false) := by
  have hm := nextId_mono_step s s2 e h
  refine ⟨Nat.lt_of_lt_of_le hi hm, ?_⟩
  cases e with
  | frame sp op os or =>
      simp only [step, StepRes.ok.injEq] at h
      subst h
      intro d hd hid
      obtain ⟨sc, tl, go, cd, pw, ni⟩ := s
      have hi2 : i < ni := hi
      unfold update at hd
      split_ifs at hd <;>
        first
          | exact hcl d hd hid
          | (simp only [Option.some.injEq] at hd
             have hni : d.id = ni := by rw [← hd]
             exfalso
             omega)
          | simp at hd
  | tick =>
      simp only [step, StepRes.ok.injEq] at h
      subst h
      intro d hd hid
      unfold timerTick at hd
      split_ifs at hd <;> simp_all
  | washFire =>
      simp only [step] at h
      unfold fireWash at h
      split_ifs at h with h0
      · simp only [StepRes.ok.injEq] at h; subst h; exact hcl
      · cases hc : s.carriedDish with
        | none => rw [hc] at h; cases h
        | some d0 =>
            rw [hc] at h
            simp only [StepRes.ok.injEq] at h
            subst h
            intro d hd hid
            simp only [Option.some.injEq] at hd
            subst hd
            rfl
  | restartKey =>
      simp only [step, StepRes.ok.injEq] at h
      subst h
      intro d hd hid
      unfold restartHandler at hd
      split_ifs at hd <;> simp_all

theorem clean_run (s s2 : GState) (tr : List GEvent) (i : Nat)
    (hi : i < s.nextId)
    (hcl : ∀ d, s.carriedDish = some d → d.id = i → d.isDirty = false)
    (h : run s tr = .ok s2) :
    i < s2.nextId ∧
    (∀ d, s2.carriedDish = some d → d.id = i → d.isDirty = false) := by
  induction tr generalizing s with
  | nil => simp only [run, StepRes.ok.injEq] at h; subst h; exact ⟨hi, hcl⟩
  | cons e tr ih =>
      unfold run at h
      cases hs : step s e with
      | ok s1 =>
          rw [hs] at h
          obtain ⟨hi1, hcl1⟩ := clean_step s s1 e i hi hcl hs
          exact ih s1 hi1 hcl1 h
      | crash => rw [hs] at h; cases h

theorem pickup_creates (s s1 : GState) (e : GEvent)
    (hp : pickupFires s e = true) (h : step s e = .ok s1) :
    s1.carriedDish = some { id := s.nextId, isDirty := true } ∧
    s1.nextId = s.nextId + 1 := by
  cases e with
  | frame sp op os or =>
      simp only [step, StepRes.ok.injEq] at h
      subst h
      simp only [pickupFires, Bool.and_eq_true, Bool.not_eq_eq_eq_not,
        Bool.not_true] at hp
      obtain ⟨⟨⟨hgo, hsp⟩, hop⟩, hnone⟩ := hp
      simp [update, hgo, hsp, hop, hnone]
  | tick => simp [pickupFires] at hp
  | washFire => simp [pickupFires] at hp
  | restartKey => simp [pickupFires] at hp

end MainJs

open MainJs in
/-- C9: the dirty flag of one carried instance is monotone.  A pickup
creates its dish with `isDirty = true`; and once the instance (identified
by its sprite id) is observed clean, it is still clean whenever it is
observed carried later in the run — `isDirty` never returns from false to
true for the same instance. -/
theorem C9_confirmed (s s1 s2 s3 : GState) (e : GEvent)
    (tr1 tr2 : List GEvent) (d2 d3 : CDish)
    (hpick : pickupFires s e = true)
    (hstep : step s e = .ok s1)
    (h1 : run s1 tr1 = .ok s2)
    (h2a : s2.carriedDish = some d2) (h2b : d2.id = s.nextId)
    (h2c : d2.isDirty = false)
    (h3 : run s2 tr2 = .ok s3)
    (h4a : s3.carriedDish = some d3) (h4b : d3.id = s.nextId) :
    s1.carriedDish = some { id := s.nextId, isDirty := true } ∧
    d3.isDirty = false := by
  obtain ⟨hc1, hn1⟩ := pickup_creates s s1 e hpick hstep
  refine ⟨hc1, ?_⟩
  have hi1 : s.nextId < s1.nextId := by omega
  have hi2 : s.nextId < s2.nextId :=
    Nat.lt_of_lt_of_le hi1 (nextId_mono_run s1 s2 tr1 h1)
  have hcl2 : ∀ d, s2.carriedDish = some d → d.id = s.nextId →
      d.isDirty = false := by
    intro d hd hid
    rw [h2a] at hd
    simp only [Option.some.injEq] at hd
    subst hd
    exact h2c
  exact (clean_run s2 s3 tr2 s.nextId hi2 hcl2 h3).2 d3 h4a h4b

open MainJs in
/-- C9 witness: a concrete pickup, wash, completion, then a tick — the
dish is created dirty and stays clean after its wash. -/
theorem C9_confirmed_witness :
    ({ score := 0, timeLeft := 60, gameOver := false,
       carriedDish := some { id := 0, isDirty := true },
       pendingWashes := 0, nextId := 1 } : GState).carriedDish =
      some { id := initG.nextId, isDirty := true } ∧
    ({ id := 0, isDirty := false } : CDish).isDirty = false :=
  C9_confirmed initG
    { score := 0, timeLeft := 60, gameOver := false,
      carriedDish := some { id := 0, isDirty := true },
      pendingWashes := 0, nextId := 1 }
    { score := 0, timeLeft := 60, gameOver := false,
      carriedDish := some { id := 0, isDirty := false },
      pendingWashes := 0, nextId := 1 }
    { score := 0, timeLeft := 59, gameOver := false,
      carriedDish := some { id := 0, isDirty := false },
      pendingWashes := 0, nextId := 1 }
    (.frame true true false false)
    [.frame true false true false, .washFire] [.tick]
    { id := 0, isDirty := false } { id := 0, isDirty := false }
    (by decide) (by decide) (by decide) (by decide) (by decide) (by decide)
    (by decide) (by decide) (by decide)

open VariantJs in
/-- C10: in the unnamed variant, delivering a clean dish (texture key
`dish`) happens over the dirty-dish pile zone — there is no drying-rack
zone — and only destroys the carried sprite: nothing else in the session
state changes, and indeed the variant state carries no score, no
countdown and no game-over flag, so the session cannot end; afterwards a
new pickup over the pile succeeds again (creating the `dirtyDish`
texture), and a wash-timer completion turns the carried texture into
`dish`. -/
theorem C10_confirmed (p q r : PState) (os os2 : Bool) (t : Tex)
    (hp : p.carried = some Tex.dish)
    (hq : q.carried = none)
    (hr : r.carried = some t) (hr2 : r.pendingWash ≠ 0) :
    pstep p (.pframe true true os) = .ok { p with carried := none } ∧
    pstep q (.pframe true true os2) =
      .ok { q with carried := some Tex.dirtyDish } ∧
    pstep r .pwashFire =
      .ok { carried := some Tex.dish, pendingWash := r.pendingWash - 1,
            timerLive := false } := by
  refine ⟨?_, ?_, ?_⟩
  · obtain ⟨pc, pw, pl⟩ := p
    simp only at hp
    subst hp
    simp [pstep, pupdate]
  · obtain ⟨qc, qw, ql⟩ := q
    simp only at hq
    subst hq
    simp [pstep, pupdate]
  · obtain ⟨rc, rw2, rl⟩ := r
    simp only at hr hr2
    subst hr
    simp [pstep, pfire, hr2]

/-- Concrete variant state carrying a clean dish for the C10 witness. -/
def VariantJs.c10p : VariantJs.PState :=
  { carried := some VariantJs.Tex.dish, pendingWash := 0, timerLive := false }

/-- Concrete variant state with a wash pending for the C10 witness. -/
def VariantJs.c10r : VariantJs.PState :=
  { carried := some VariantJs.Tex.dirtyDish, pendingWash := 1,
    timerLive := true }

open VariantJs in
/-- C10 witness: drop-off, renewed pickup and wash completion evaluated
at concrete variant states. -/
theorem C10_confirmed_witness :
    pstep c10p (.pframe true true false) = .ok { c10p with carried := none } ∧
    pstep pinit (.pframe true true true) =
      .ok { pinit with carried := some Tex.dirtyDish } ∧
    pstep c10r .pwashFire =
      .ok { carried := some Tex.dish, pendingWash := c10r.pendingWash - 1,
            timerLive := false } :=
  C10_confirmed c10p pinit c10r false true Tex.dirtyDish
    (by decide) (by decide) (by decide) (by decide)
